import Mathlib

/-!
# Verification of the shadowguard analysis pipeline

A shallow embedding of the pure computational core of the `shadowguard`
repository (Python), together with theorems settling the frozen claims about
it.  Python integers are modelled by `Nat`/`Int`, Python floats by `Rat`
(Python float arithmetic is abstracted to exact rational arithmetic; the
inputs exercised by the spec are exactly representable), Python `bytes` by
`List Nat`, Python dicts by association lists, and fallible code by `Except`.

Embedded source files:
* `src/utils/helpers.py`   — `compute_deterministic_hash`, `drain_percentage`,
  `risk_level_from_score`, `recommendation_from_level`
* `src/core/opcode_analyzer.py` — `OpcodeAnalyzer._scan_bytecode`
* `src/core/state_diff.py` — `StateDiffEngine.compute`
* `src/core/risk_engine.py` — `RiskEngine.compute`
* `src/core/policy_engine.py` — `DEFAULT_POLICY`, `PolicyEngine.set`,
  `PolicyEngine.apply`
* `src/core/shadow_executor.py` — `ShadowExecutor.execute`, `_get_real_gas`
* `src/models/simulation.py` — the dataclasses and their `to_dict` methods
* `src/config.py` — `RISK_WEIGHTS`, `MAX_NESTED_CALLS`
-/

/-! ## Decimal rendering of integers (Python `str`) -/

/-- The decimal digit characters of `n`, most significant first
(Python `str(n)` for a non-negative `n`). -/
def natChars (n : Nat) : List Char :=
  if n = 0 then ['0'] else ((Nat.digits 10 n).reverse.map Nat.digitChar)

/-- Python `str(n)` for a natural number. -/
def natStr (n : Nat) : String := String.mk (natChars n)

/-- Python `str(i)` for an integer. -/
def intStr (i : Int) : String :=
  if i < 0 then "-" ++ natStr i.natAbs else natStr i.natAbs

theorem digitChar_inj_lt10 : ∀ a, a < 10 → ∀ b, b < 10 →
    Nat.digitChar a = Nat.digitChar b → a = b := by decide

theorem map_digitChar_inj : ∀ (l₁ l₂ : List Nat),
    (∀ d ∈ l₁, d < 10) → (∀ d ∈ l₂, d < 10) →
    l₁.map Nat.digitChar = l₂.map Nat.digitChar → l₁ = l₂ := by
  intro l₁
  induction l₁ with
  | nil => intro l₂ _ _ h; cases l₂ <;> simp_all
  | cons a t ih =>
    intro l₂ h₁ h₂ h
    cases l₂ with
    | nil => simp_all
    | cons b t₂ =>
      simp only [List.map_cons, List.cons.injEq] at h
      have ha : a < 10 := h₁ a (List.mem_cons_self a t)
      have hb : b < 10 := h₂ b (List.mem_cons_self b t₂)
      have hab := digitChar_inj_lt10 a ha b hb h.1
      have ht := ih t₂ (fun d hd => h₁ d (List.mem_cons_of_mem a hd))
        (fun d hd => h₂ d (List.mem_cons_of_mem b hd)) h.2
      simp [hab, ht]

theorem natChars_injective : Function.Injective natChars := by
  intro n m h
  unfold natChars at h
  by_cases hn : n = 0 <;> by_cases hm : m = 0 <;> simp [hn, hm] at h ⊢
  · -- n = 0, m ≠ 0 : the digit list of m maps to ['0'], forcing m = 0
    exfalso
    have hd : ∀ d ∈ (Nat.digits 10 m).reverse, d < 10 := by
      intro d hdm
      exact Nat.digits_lt_base (by norm_num) (List.mem_reverse.mp hdm)
    have h0 : ([0] : List Nat).map Nat.digitChar = [Nat.digitChar 0] := rfl
    have : (Nat.digits 10 m).reverse = [0] := by
      apply map_digitChar_inj _ _ hd (by simp)
      simpa using h.symm
    have hm0 : Nat.digits 10 m = [0] := by
      have := congrArg List.reverse this
      simpa using this
    have := Nat.ofDigits_digits 10 m
    rw [hm0] at this
    simp [Nat.ofDigits] at this
    exact hm this.symm
  · exfalso
    have hd : ∀ d ∈ (Nat.digits 10 n).reverse, d < 10 := by
      intro d hdn
      exact Nat.digits_lt_base (by norm_num) (List.mem_reverse.mp hdn)
    have : (Nat.digits 10 n).reverse = [0] := by
      apply map_digitChar_inj _ _ hd (by simp)
      simpa using h
    have hn0 : Nat.digits 10 n = [0] := by
      have := congrArg List.reverse this
      simpa using this
    have := Nat.ofDigits_digits 10 n
    rw [hn0] at this
    simp [Nat.ofDigits] at this
    exact hn this.symm
  · have hd₁ : ∀ d ∈ Nat.digits 10 n, d < 10 := by
      intro d hdm
      exact Nat.digits_lt_base (by norm_num) hdm
    have hd₂ : ∀ d ∈ Nat.digits 10 m, d < 10 := by
      intro d hdm
      exact Nat.digits_lt_base (by norm_num) hdm
    exact Nat.digits.injective 10 (map_digitChar_inj _ _ hd₁ hd₂ h)

theorem natStr_injective : Function.Injective natStr := by
  intro n m h
  apply natChars_injective
  have : (natStr n).data = (natStr m).data := congrArg String.data h
  simpa [natStr] using this

/-! ## Small string utilities -/

/-- Join a list of strings with a separator (Python `sep.join(xs)`). -/
def joinSep (sep : String) (xs : List String) : String :=
  match xs with
  | [] => ""
  | x :: rest => rest.foldl (fun a b => a ++ sep ++ b) x

/-- Lowercase hexadecimal digit for a value `< 16`. -/
def hexDigit (n : Nat) : Char :=
  if n < 10 then Nat.digitChar n
  else if n = 10 then 'a' else if n = 11 then 'b' else if n = 12 then 'c'
  else if n = 13 then 'd' else if n = 14 then 'e' else 'f'

/-- Fixed-width lowercase hex rendering of `n` (`width` digits). -/
def hexFixed (width n : Nat) : String :=
  String.mk ((List.range width).reverse.map fun k => hexDigit (n / 16 ^ k % 16))

/-- Byte-wise lowercase hex string (Python `bytes.hex()`). -/
def bytesHex (bs : List Nat) : String :=
  String.mk (bs.foldr (fun b acc => hexDigit (b / 16 % 16) :: hexDigit (b % 16) :: acc) [])

/-- Code-point lexicographic comparison of strings (Python `<=` on `str`). -/
def strLeb (a b : String) : Bool :=
  go a.data b.data
where
  go : List Char → List Char → Bool
    | [], _ => true
    | _ :: _, [] => false
    | c :: cs, d :: ds =>
      if c.toNat < d.toNat then true
      else if d.toNat < c.toNat then false
      else go cs ds

/-- Round a rational to the nearest integer, ties to even
(the rounding used by Python `format`). -/
def roundHalfEven (q : Rat) : Int :=
  let f : Int := ⌊q⌋
  let r : Rat := q - f
  if r < 1/2 then f
  else if 1/2 < r then f + 1
  else if f % 2 = 0 then f else f + 1

/-- Python `f"{q:.0f}"` on a float, with the float abstracted to a rational. -/
def fmtRat0 (q : Rat) : String := intStr (roundHalfEven q)

/-- Python `f"{q:.1f}"` on a float, with the float abstracted to a rational. -/
def fmtRat1 (q : Rat) : String :=
  let n : Int := roundHalfEven (q * 10)
  if n < 0 then
    "-" ++ natStr (n.natAbs / 10) ++ "." ++ natStr (n.natAbs % 10)
  else
    natStr (n.natAbs / 10) ++ "." ++ natStr (n.natAbs % 10)

/-- Index of the first occurrence of `pat` in `hay`, if any
(Python `str.find` on the char lists). -/
def findSub (hay pat : List Char) : Option Nat :=
  match hay with
  | [] => if pat = [] then some 0 else none
  | _ :: t =>
    if pat.isPrefixOf hay then some 0
    else (findSub t pat).map (· + 1)

/-- Python `pat in s` for strings. -/
def strContainsSub (s pat : String) : Bool := (findSub s.data pat.data).isSome

/-- Python `s.split(sep)` restricted to the first split point: returns the text
after the first occurrence of `sep`, if `sep` occurs. -/
def splitAfterFirst (s sep : String) : Option String :=
  (findSub s.data sep.data).map fun i =>
    String.mk (s.data.drop (i + sep.data.length))

/-- Python `s.strip()`: remove leading and trailing ASCII whitespace. -/
def stripStr (s : String) : String :=
  let ws : Char → Bool := fun c => c = ' ' ∨ c = '\n' ∨ c = '\t' ∨ c = '\r'
  String.mk (((s.data.dropWhile ws).reverse.dropWhile ws).reverse)

/-- Python `s.lower()` restricted to ASCII. -/
def lowerStr (s : String) : String :=
  String.mk (s.data.map fun c =>
    if 'A' ≤ c ∧ c ≤ 'Z' then Char.ofNat (c.toNat + 32) else c)

/-- Python `s[:n]`. -/
def takeStr (n : Nat) (s : String) : String := String.mk (s.data.take n)

/-! ## SHA-256 (RFC 6234), over byte lists

`hashlib.sha256(x).hexdigest()` modelled exactly: words are naturals reduced
modulo `2 ^ 32`. -/

/-- UTF-8 encoding of one character (Python `str.encode()`). -/
def charUtf8 (c : Char) : List Nat :=
  let n := c.toNat
  if n < 0x80 then [n]
  else if n < 0x800 then [0xC0 + n / 64, 0x80 + n % 64]
  else if n < 0x10000 then
    [0xE0 + n / 4096, 0x80 + n / 64 % 64, 0x80 + n % 64]
  else
    [0xF0 + n / 262144, 0x80 + n / 4096 % 64, 0x80 + n / 64 % 64, 0x80 + n % 64]

/-- UTF-8 bytes of a string (Python `str.encode()`). -/
def utf8Bytes (s : String) : List Nat :=
  (s.data.map charUtf8).foldr (· ++ ·) []

/-- Truncate to a 32-bit word. -/
def w32 (n : Nat) : Nat := n % 2 ^ 32

/-- Right rotation of a 32-bit word. -/
def rotr32 (k n : Nat) : Nat := w32 ((n >>> k) ||| (n <<< (32 - k)))

/-- Integer binary search for the cube root: greatest `r` with `r ^ 3 ≤ n`,
maintained as the invariant of `[lo, hi)`. -/
def icbrtGo (n : Nat) (lo hi : Nat) : Nat :=
  if hi ≤ lo + 1 then lo
  else
    let mid := (lo + hi) / 2
    if mid ^ 3 ≤ n then icbrtGo n mid hi else icbrtGo n lo mid
termination_by hi - lo
decreasing_by
  all_goals omega

/-- Integer cube root. -/
def icbrt (n : Nat) : Nat := icbrtGo n 0 (n + 1)

/-- Trial-division primality for small numbers. -/
def isPrimeSimple (n : Nat) : Bool :=
  decide (2 ≤ n) && (((List.range n).drop 2).all fun d => n % d ≠ 0)

/-- The first `k` primes (all lie below 400 for `k ≤ 64`). -/
def firstPrimes (k : Nat) : List Nat :=
  ((List.range 400).filter isPrimeSimple).take k

/-- SHA-256 round constants: the first 32 bits of the fractional parts of the
cube roots of the first 64 primes. -/
def sha256K : List Nat :=
  (firstPrimes 64).map fun p => icbrt (p * 2 ^ 96) % 2 ^ 32

/-- SHA-256 initial hash state: the first 32 bits of the fractional parts of
the square roots of the first 8 primes. -/
def sha256H0 : List Nat :=
  (firstPrimes 8).map fun p => Nat.sqrt (p * 2 ^ 64) % 2 ^ 32

/-- Pad a message per SHA-256: append `0x80`, zeros and the 64-bit bit length. -/
def sha256Pad (msg : List Nat) : List Nat :=
  let len := msg.length
  let zeros := (64 - (len + 9) % 64) % 64
  msg ++ [0x80] ++ List.replicate zeros 0 ++
    ((List.range 8).reverse.map fun k => len * 8 / 256 ^ k % 256)

/-- Split a list into chunks of `k` elements. -/
def chunksOf (k : Nat) (l : List Nat) (hk : 0 < k := by decide) : List (List Nat) :=
  if l = [] then []
  else l.take k :: chunksOf k (l.drop k) hk
termination_by l.length
decreasing_by
  simp only [List.length_drop]
  have : l.length ≠ 0 := by simpa [List.length_eq_zero] using (by assumption : ¬l = [])
  omega

/-- The 64-entry message schedule of one 512-bit block. -/
def sha256Schedule (block : List Nat) : Array Nat := Id.run do
  let w16 := (List.range 16).map fun j =>
    (block.getD (4 * j) 0) * 2 ^ 24 + (block.getD (4 * j + 1) 0) * 2 ^ 16 +
    (block.getD (4 * j + 2) 0) * 2 ^ 8 + block.getD (4 * j + 3) 0
  let mut w : Array Nat := w16.toArray
  for t in [16:64] do
    let w15 := w.getD (t - 15) 0
    let w2 := w.getD (t - 2) 0
    let s0 := rotr32 7 w15 ^^^ rotr32 18 w15 ^^^ (w15 >>> 3)
    let s1 := rotr32 17 w2 ^^^ rotr32 19 w2 ^^^ (w2 >>> 10)
    w := w.push (w32 (w.getD (t - 16) 0 + s0 + w.getD (t - 7) 0 + s1))
  return w

/-- Compress one block into the running state. -/
def sha256Compress (state : List Nat) (block : List Nat) : List Nat := Id.run do
  let w := sha256Schedule block
  let mut a := state.getD 0 0
  let mut b := state.getD 1 0
  let mut c := state.getD 2 0
  let mut d := state.getD 3 0
  let mut e := state.getD 4 0
  let mut f := state.getD 5 0
  let mut g := state.getD 6 0
  let mut h := state.getD 7 0
  for t in [0:64] do
    let s1 := rotr32 6 e ^^^ rotr32 11 e ^^^ rotr32 25 e
    let ch := (e &&& f) ^^^ (w32 (2 ^ 32 - 1 - e) &&& g)
    let t1 := w32 (h + s1 + ch + sha256K.getD t 0 + w.getD t 0)
    let s0 := rotr32 2 a ^^^ rotr32 13 a ^^^ rotr32 22 a
    let maj := (a &&& b) ^^^ (a &&& c) ^^^ (b &&& c)
    let t2 := w32 (s0 + maj)
    h := g
    g := f
    f := e
    e := w32 (d + t1)
    d := c
    c := b
    b := a
    a := w32 (t1 + t2)
  return [w32 (state.getD 0 0 + a), w32 (state.getD 1 0 + b),
          w32 (state.getD 2 0 + c), w32 (state.getD 3 0 + d),
          w32 (state.getD 4 0 + e), w32 (state.getD 5 0 + f),
          w32 (state.getD 6 0 + g), w32 (state.getD 7 0 + h)]

/-- SHA-256 digest of a byte list, rendered as lowercase hex
(Python `hashlib.sha256(bs).hexdigest()`). -/
def sha256Hex (bs : List Nat) : String :=
  let final := (chunksOf 64 (sha256Pad bs)).foldl sha256Compress sha256H0
  joinSep "" (final.map (hexFixed 8))

/-! ## JSON values

Python dicts/lists/scalars as fed to `json.dumps`.  Objects carry their
key/value pairs in insertion order; `json.dumps(..., sort_keys=True)` sorts
the keys at serialization time, which `serializeJV` mirrors.  Python floats
are abstracted to exact rationals (constructor `jnum`). -/

inductive JVal where
  | jnull : JVal
  | jbool : Bool → JVal
  | jint : Int → JVal
  | jnum : Rat → JVal
  | jstr : String → JVal
  | jarr : List JVal → JVal
  | jobj : List (String × JVal) → JVal
deriving Repr

/-- JSON string escaping as done by `json.dumps` with `ensure_ascii=True`. -/
def jsonEscapeChar (c : Char) : String :=
  if c = '"' then "\\\""
  else if c = '\\' then "\\\\"
  else if c = '\n' then "\\n"
  else if c = '\r' then "\\r"
  else if c = '\t' then "\\t"
  else if c.toNat = 8 then "\\b"
  else if c.toNat = 12 then "\\f"
  else if c.toNat < 0x20 then "\\u" ++ hexFixed 4 c.toNat
  else if c.toNat < 0x7F then String.mk [c]
  else if c.toNat < 0x10000 then "\\u" ++ hexFixed 4 c.toNat
  else
    let v := c.toNat - 0x10000
    "\\u" ++ hexFixed 4 (0xD800 + v / 0x400) ++ "\\u" ++ hexFixed 4 (0xDC00 + v % 0x400)

/-- A JSON string literal for `s`. -/
def jsonQuote (s : String) : String :=
  "\"" ++ joinSep "" (s.data.map jsonEscapeChar) ++ "\""

/-- Serialization of a rational standing in for a Python float.  Python would
print the shortest `repr` of the IEEE double; integral values print with a
trailing `.0`, which is the only case the hashed records exercise.  Non-integral
rationals are rendered exactly as a fraction (a faithful stand-in is impossible
without bit-level floats; no theorem depends on this rendering). -/
def ratLit (q : Rat) : String :=
  if q.den = 1 then intStr q.num ++ ".0"
  else intStr q.num ++ "/" ++ natStr q.den

/-- Insertion sort of key/value pairs by key (Python `sort_keys=True`). -/
def sortPairsByKey (l : List (String × String)) : List (String × String) :=
  match l with
  | [] => []
  | p :: rest => insertPair p (sortPairsByKey rest)
where
  insertPair (p : String × String) : List (String × String) → List (String × String)
    | [] => [p]
    | q :: rest => if strLeb p.1 q.1 then p :: q :: rest else q :: insertPair p rest

mutual

/-- Serialization matching `json.dumps(v, sort_keys=True)` with the default separators. -/
def serializeJV : JVal → String
  | .jnull => "null"
  | .jbool b => if b then "true" else "false"
  | .jint n => intStr n
  | .jnum q => ratLit q
  | .jstr s => jsonQuote s
  | .jarr xs => "[" ++ joinSep ", " (serializeList xs) ++ "]"
  | .jobj kvs =>
    let rendered := sortPairsByKey (serializePairs kvs)
    "\x7b" ++ joinSep ", " (rendered.map fun p => jsonQuote p.1 ++ ": " ++ p.2) ++ "\x7d"

def serializeList : List JVal → List String
  | [] => []
  | v :: rest => serializeJV v :: serializeList rest

def serializePairs : List (String × JVal) → List (String × String)
  | [] => []
  | (k, v) :: rest => (k, serializeJV v) :: serializePairs rest

end

/-! ## Data model (`src/models/simulation.py`)

Each dataclass is a structure; its `to_dict` method is a `...ToJson`
function producing the `JVal` handed to `json.dumps`.  `StateDiff.storage_changes`
is a `Dict[int, Dict[str, str]]`; it is modelled as an association list of
`SlotChange` entries, which claims about dict equality pair with the canonical
(slot-sorted, duplicate-free) representative of the Python dict. -/

structure SlotChange where
  slot : Nat
  before : String
  after : String
deriving DecidableEq, Repr

structure StateDiff where
  sender_balance_delta_wei : Int
  receiver_balance_delta_wei : Int
  sender_drain_pct : Rat
  ownership_changed : Bool
  storage_changes : List SlotChange
  code_changed : Bool
  block_delta : Int
deriving DecidableEq, Repr

/-- Strictly increasing slot keys. -/
def slotsSorted : List SlotChange → Bool
  | [] => true
  | [_] => true
  | a :: b :: t => decide (a.slot < b.slot) && slotsSorted (b :: t)

/-- The canonical-dict representative condition for `storage_changes`:
strictly increasing slot keys (so distinct Lean values are distinct Python
dicts). -/
def StateDiff.canonicalSlots (sd : StateDiff) : Prop :=
  slotsSorted sd.storage_changes = true

instance (sd : StateDiff) : Decidable sd.canonicalSlots :=
  inferInstanceAs (Decidable (slotsSorted sd.storage_changes = true))

structure OpcodeProfile where
  selfdestruct_count : Nat
  delegatecall_count : Nat
  callcode_count : Nat
  create2_count : Nat
  create_count : Nat
  sstore_count : Nat
  call_count : Nat
  has_dangerous_opcodes : Bool
  risk_opcodes : List String
  bytecode_size : Nat
deriving DecidableEq, Repr

structure BehaviorReport where
  nested_call_depth : Nat
  gas_anomaly : Bool
  gas_usage_pct : Rat
  external_interactions : Nat
  storage_write_count : Nat
  static_call_count : Nat
  behavior_flags : List String
deriving DecidableEq, Repr

structure RiskReport where
  score : Int
  level : String
  triggered_rules : List String
  recommendation : String
  policy_violations : List String
  deterministic_hash : String
deriving DecidableEq, Repr

structure StateSnapshot where
  sender_balance_wei : Int
  receiver_balance_wei : Int
  contract_code_hash : String
  contract_code_size : Nat
  storage_slots : List (Nat × String)
  owner_slot : String
  block_number : Int
  timestamp : String
deriving DecidableEq, Repr

structure SimulationRequest where
  sender : String
  -- the source field is named `to`, which is a reserved token here
  toAddr : String
  value_wei : Int
  data : String
  gas_limit : Nat
  simulation_id : String
  timestamp : String
deriving DecidableEq, Repr

structure SimulationResult where
  success : Bool
  return_data : String
  gas_used : Nat
  gas_limit : Nat
  reverted : Bool
  revert_reason : Option String
  trace : Option JVal
  execution_time_ms : Rat
deriving Repr

/-- Model of `StateDiff.to_dict` (`src/models/simulation.py`): slot keys go through
Python `str`. -/
def stateDiffToJson (sd : StateDiff) : JVal :=
  .jobj [
    ("sender_balance_delta_wei", .jint sd.sender_balance_delta_wei),
    ("receiver_balance_delta_wei", .jint sd.receiver_balance_delta_wei),
    ("sender_drain_pct", .jnum sd.sender_drain_pct),
    ("ownership_changed", .jbool sd.ownership_changed),
    ("storage_changes", .jobj (sd.storage_changes.map fun s =>
      (natStr s.slot, .jobj [("before", .jstr s.before), ("after", .jstr s.after)]))),
    ("code_changed", .jbool sd.code_changed),
    ("block_delta", .jint sd.block_delta)]

/-- Model of `OpcodeProfile.to_dict` (`src/models/simulation.py`). -/
def opcodeProfileToJson (op : OpcodeProfile) : JVal :=
  .jobj [
    ("selfdestruct_count", .jint op.selfdestruct_count),
    ("delegatecall_count", .jint op.delegatecall_count),
    ("callcode_count", .jint op.callcode_count),
    ("create2_count", .jint op.create2_count),
    ("create_count", .jint op.create_count),
    ("sstore_count", .jint op.sstore_count),
    ("call_count", .jint op.call_count),
    ("has_dangerous_opcodes", .jbool op.has_dangerous_opcodes),
    ("risk_opcodes", .jarr (op.risk_opcodes.map .jstr)),
    ("bytecode_size", .jint op.bytecode_size)]

/-! ## `src/utils/helpers.py` -/

/-- Model of `drain_percentage(before_wei, after_wei)` (`src/utils/helpers.py`, lines
91–98).  Python floats abstracted to exact rationals. -/
def drain_percentage (before_wei after_wei : Int) : Rat :=
  if before_wei = 0 then 0
  else
    let delta := before_wei - after_wei
    if delta ≤ 0 then 0
    else (delta : Rat) / (before_wei : Rat) * 100

/-- Model of `risk_level_from_score(score)` (`src/utils/helpers.py`, lines 101–110). -/
def risk_level_from_score (score : Int) : String :=
  if score ≤ 25 then "LOW"
  else if score ≤ 50 then "MEDIUM"
  else if score ≤ 75 then "HIGH"
  else "CRITICAL"

/-- Model of `recommendation_from_level(level)` (`src/utils/helpers.py`, lines 113–121). -/
def recommendation_from_level (level : String) : String :=
  if level = "LOW" then "Transaction appears safe. Proceed with standard caution."
  else if level = "MEDIUM" then
    "Transaction has moderate risk. Review triggered rules before proceeding."
  else if level = "HIGH" then
    "Transaction poses significant risk. Manual audit recommended before execution."
  else if level = "CRITICAL" then
    "BLOCK TRANSACTION IMMEDIATELY. High probability of malicious activity detected."
  else "Unknown risk level."

/-- The record argument of `compute_deterministic_hash`: the dict built at
`src/core/risk_engine.py`, lines 116–126, has exactly these keys; the
`risk_report` sub-dict is kept generic because the helper filters it. -/
structure HashRecord where
  simulation_id : String
  request : JVal
  state_diff : JVal
  opcode_profile : JVal
  risk_report : List (String × JVal)

/-- The `stable` canonical dict assembled by `compute_deterministic_hash`
(`src/utils/helpers.py`, lines 31–40): fixed top-level keys and a
`risk_report` stripped of any `deterministic_hash` entry. -/
def stableRecordJson (r : HashRecord) : JVal :=
  .jobj [
    ("simulation_id", .jstr r.simulation_id),
    ("request", r.request),
    ("state_diff", r.state_diff),
    ("opcode_profile", r.opcode_profile),
    ("risk_report", .jobj (r.risk_report.filter fun kv => kv.1 ≠ "deterministic_hash"))]

/-- Model of `compute_deterministic_hash(record)` (`src/utils/helpers.py`, lines 29–42):
serialize the stable dict with sorted keys and take the SHA-256 hex digest. -/
def compute_deterministic_hash (r : HashRecord) : String :=
  sha256Hex (utf8Bytes (serializeJV (stableRecordJson r)))

/-! ## `src/config.py` -/

/-- Model of `config.RISK_WEIGHTS` as a lookup over the dict keys. -/
def RISK_WEIGHTS (k : String) : Int :=
  if k = "balance_drain_50pct" then 40
  else if k = "ownership_changed" then 50
  else if k = "selfdestruct_detected" then 30
  else if k = "delegatecall_detected" then 20
  else if k = "nested_calls_exceeded" then 20
  else if k = "gas_anomaly" then 15
  else if k = "create2_detected" then 10
  else if k = "multiple_storage_writes" then 10
  else if k = "callcode_detected" then 15
  else if k = "contract_reverted" then 5
  else 0

/-- Model of `config.MAX_NESTED_CALLS` (environment default). -/
def MAX_NESTED_CALLS : Nat := 5

/-! ## `src/core/risk_engine.py` — `RiskEngine.compute`

The body is a fixed sequence of eleven `if` blocks, each adding a weight to
the running score and a message to `triggered_rules` when its condition
holds.  `riskItems` lists those blocks in source order as
`(condition, points, message)`; `RiskEngine.compute` folds over them exactly
as the Python accumulation does. -/

/-- The eleven rule blocks of `RiskEngine.compute`
(`src/core/risk_engine.py`, lines 34–107), in source order. -/
def riskItems (sd : StateDiff) (op : OpcodeProfile) (br : BehaviorReport) :
    List (Bool × Int × String) :=
  [ (decide (sd.sender_drain_pct > 50), RISK_WEIGHTS "balance_drain_50pct",
      fmtRat0 sd.sender_drain_pct ++ "% balance drain detected (+" ++
        intStr (RISK_WEIGHTS "balance_drain_50pct") ++ ")"),
    (sd.ownership_changed, RISK_WEIGHTS "ownership_changed",
      "Contract ownership transferred (+" ++
        intStr (RISK_WEIGHTS "ownership_changed") ++ ")"),
    (sd.code_changed, 20, "Contract bytecode modified (+20)"),
    (decide (sd.storage_changes.length > 3), RISK_WEIGHTS "multiple_storage_writes",
      "Multiple critical storage slots modified: " ++
        natStr sd.storage_changes.length ++ " (+" ++
        intStr (RISK_WEIGHTS "multiple_storage_writes") ++ ")"),
    (decide (op.selfdestruct_count > 0), RISK_WEIGHTS "selfdestruct_detected",
      "SELFDESTRUCT opcode detected (×" ++ natStr op.selfdestruct_count ++
        ") (+" ++ intStr (RISK_WEIGHTS "selfdestruct_detected") ++ ")"),
    (decide (op.delegatecall_count > 0), RISK_WEIGHTS "delegatecall_detected",
      "DELEGATECALL opcode detected (×" ++ natStr op.delegatecall_count ++
        ") (+" ++ intStr (RISK_WEIGHTS "delegatecall_detected") ++ ")"),
    (decide (op.callcode_count > 0), RISK_WEIGHTS "callcode_detected",
      "CALLCODE opcode detected (×" ++ natStr op.callcode_count ++
        ") (+" ++ intStr (RISK_WEIGHTS "callcode_detected") ++ ")"),
    (decide (op.create2_count > 0), RISK_WEIGHTS "create2_detected",
      "CREATE2 opcode detected (×" ++ natStr op.create2_count ++
        ") (+" ++ intStr (RISK_WEIGHTS "create2_detected") ++ ")"),
    (decide (br.nested_call_depth > MAX_NESTED_CALLS), RISK_WEIGHTS "nested_calls_exceeded",
      "Nested external calls: " ++ natStr br.nested_call_depth ++
        " (threshold=" ++ natStr MAX_NESTED_CALLS ++ ") (+" ++
        intStr (RISK_WEIGHTS "nested_calls_exceeded") ++ ")"),
    (br.gas_anomaly, RISK_WEIGHTS "gas_anomaly",
      "Gas anomaly: " ++ fmtRat1 br.gas_usage_pct ++ "% of limit consumed (+" ++
        intStr (RISK_WEIGHTS "gas_anomaly") ++ ")"),
    (decide (br.storage_write_count > 5), RISK_WEIGHTS "multiple_storage_writes",
      "Excessive SSTORE operations: " ++ natStr br.storage_write_count ++
        " (+" ++ intStr (RISK_WEIGHTS "multiple_storage_writes") ++ ")") ]

namespace RiskEngine

/-- Model of `RiskEngine.compute` (`src/core/risk_engine.py`, lines 19–141). -/
def compute (sd : StateDiff) (op : OpcodeProfile) (br : BehaviorReport)
    (simulation_id : String) : RiskReport :=
  let items := riskItems sd op br
  let rawScore : Int := items.foldl (fun acc it => if it.1 then acc + it.2.1 else acc) 0
  let triggered_rules : List String := (items.filter fun it => it.1).map fun it => it.2.2
  let score : Int := max 0 (min 100 rawScore)
  let level := risk_level_from_score score
  let recommendation := recommendation_from_level level
  let det_hash := compute_deterministic_hash
    { simulation_id := simulation_id
      request := .jobj []          -- the call site hardcodes `"request": {}`
      state_diff := stateDiffToJson sd
      opcode_profile := opcodeProfileToJson op
      risk_report := [
        ("score", .jint score),
        ("level", .jstr level),
        ("triggered_rules", .jarr (triggered_rules.map .jstr))] }
  { score := score
    level := level
    triggered_rules := triggered_rules
    recommendation := recommendation
    policy_violations := []
    deterministic_hash := det_hash }

end RiskEngine

/-! ## `src/core/opcode_analyzer.py` — `OpcodeAnalyzer._scan_bytecode` -/

/-- The `counts` dict of `_scan_bytecode`. -/
structure OpcodeCounts where
  selfdestruct : Nat
  delegatecall : Nat
  callcode : Nat
  create2 : Nat
  create : Nat
  sstore : Nat
  call : Nat
  staticcall : Nat
deriving DecidableEq, Repr

/-- The all-zero initial `counts` dict. -/
def zeroCounts : OpcodeCounts := ⟨0, 0, 0, 0, 0, 0, 0, 0⟩

/-- The `if/elif` counter updates of one loop iteration
(`src/core/opcode_analyzer.py`, lines 101–116). -/
def bumpCounts (c : OpcodeCounts) (b : Nat) : OpcodeCounts :=
  if b = 0xFF then { c with selfdestruct := c.selfdestruct + 1 }
  else if b = 0xF4 then { c with delegatecall := c.delegatecall + 1 }
  else if b = 0xF2 then { c with callcode := c.callcode + 1 }
  else if b = 0xF5 then { c with create2 := c.create2 + 1 }
  else if b = 0xF0 then { c with create := c.create + 1 }
  else if b = 0x55 then { c with sstore := c.sstore + 1 }
  else if b = 0xF1 then { c with call := c.call + 1 }
  else if b = 0xFA then { c with staticcall := c.staticcall + 1 }
  else c

/-- The scan loop of `_scan_bytecode` over the unread suffix of the bytecode:
count the byte under the cursor, then advance — by `push_size + 1` for a
`PUSH1..PUSH32` byte (`0x60`–`0x7F`, `push_size = byte - 0x60 + 1`), else
by `1` (`src/core/opcode_analyzer.py`, lines 97–123). -/
def scanAux : List Nat → OpcodeCounts → OpcodeCounts
  | [], c => c
  | b :: rest, c =>
    let c2 := bumpCounts c b
    if 0x60 ≤ b ∧ b ≤ 0x7F then scanAux (rest.drop (b - 0x60 + 1)) c2
    else scanAux rest c2
termination_by l _ => l.length
decreasing_by
  all_goals simp only [List.length_drop, List.length_cons]
  all_goals omega

/-- Model of `OpcodeAnalyzer._scan_bytecode(bytecode)`: run the loop from a zeroed
counts dict. -/
def scan_bytecode (bytecode : List Nat) : OpcodeCounts := scanAux bytecode zeroCounts

/-- The cursor update of one loop iteration of `_scan_bytecode`, as a function
of the absolute index (`i += push_size + 1` or `i += 1`). -/
def scanNext (bytecode : List Nat) (i : Nat) : Nat :=
  let b := bytecode.getD i 0
  if 0x60 ≤ b ∧ b ≤ 0x7F then i + (b - 0x60 + 1) + 1 else i + 1

/-- The literal `while i < len(bytecode)` loop with an explicit cursor and a
fuel bound: `none` means the fuel ran out before the loop exited. -/
def scanLoopFuel (bytecode : List Nat) : Nat → Nat → OpcodeCounts → Option OpcodeCounts
  | 0, i, c => if i < bytecode.length then none else some c
  | fuel + 1, i, c =>
    if i < bytecode.length then
      scanLoopFuel bytecode fuel (scanNext bytecode i) (bumpCounts c (bytecode.getD i 0))
    else some c

/-! ## `src/core/state_diff.py` — `StateDiffEngine.compute` -/

/-- The 32-byte zero word literal `"0x" + "0" * 64`. -/
def zeroWord : String := "0x" ++ String.mk (List.replicate 64 '0')

/-- Python `dict.get(slot, zeroWord)` over the modelled storage mapping. -/
def slotGetD (slots : List (Nat × String)) (slot : Nat) : String :=
  match slots.find? (fun p => p.1 = slot) with
  | some p => p.2
  | none => zeroWord

namespace StateDiffEngine

/-- Model of `StateDiffEngine.compute(before, after)` (`src/core/state_diff.py`,
lines 25–75).  The union `set(before) | set(after)` of slot keys is iterated
in first-appearance order (Python set iteration order is abstracted; the
resulting dict is order-insensitive). -/
def compute (before after : StateSnapshot) : StateDiff :=
  let sender_delta := after.sender_balance_wei - before.sender_balance_wei
  let receiver_delta := after.receiver_balance_wei - before.receiver_balance_wei
  let drain_pct := drain_percentage before.sender_balance_wei after.sender_balance_wei
  let ownership_changed :=
    before.owner_slot ≠ after.owner_slot ∧ after.owner_slot ≠ zeroWord
  let all_slots :=
    (before.storage_slots.map Prod.fst ++ after.storage_slots.map Prod.fst).eraseDups
  let storage_changes := all_slots.filterMap fun slot =>
    let before_val := slotGetD before.storage_slots slot
    let after_val := slotGetD after.storage_slots slot
    if before_val ≠ after_val then
      some { slot := slot, before := before_val, after := after_val }
    else none
  let code_changed := before.contract_code_hash ≠ after.contract_code_hash
  let block_delta := after.block_number - before.block_number
  { sender_balance_delta_wei := sender_delta
    receiver_balance_delta_wei := receiver_delta
    sender_drain_pct := drain_pct
    ownership_changed := decide ownership_changed
    storage_changes := storage_changes
    code_changed := decide code_changed
    block_delta := block_delta }

end StateDiffEngine

/-! ## `src/core/policy_engine.py` -/

/-- A policy value: the default document holds only ints and bools
(Python `bool` is an `int` subtype, so `value + 1` is total on both). -/
inductive PVal where
  | pint : Int → PVal
  | pbool : Bool → PVal
deriving DecidableEq, Repr

/-- Python truthiness of a policy value. -/
def PVal.truthy : PVal → Bool
  | .pint n => n ≠ 0
  | .pbool b => b

/-- Python `int(v)` under `v + 1`-style arithmetic (`True = 1`, `False = 0`). -/
def PVal.toInt : PVal → Int
  | .pint n => n
  | .pbool b => if b then 1 else 0

/-- Python `str(v)` for a policy value. -/
def PVal.str : PVal → String
  | .pint n => intStr n
  | .pbool b => if b then "True" else "False"

/-- A policy document: a Python dict in insertion order. -/
def PolicyDoc := List (String × PVal)
deriving DecidableEq

/-- Python `d.get(k)` (first matching key). -/
def docGet (d : PolicyDoc) (k : String) : Option PVal :=
  (List.find? (fun p => p.1 = k) d).map Prod.snd

/-- Python `d[k] = v`: replace the first binding of `k`, else append. -/
def docSet (d : PolicyDoc) (k : String) (v : PVal) : PolicyDoc :=
  match d with
  | [] => [(k, v)]
  | p :: rest => if p.1 = k then (k, v) :: rest else p :: docSet rest k v

/-- Model of `DEFAULT_POLICY` (`src/core/policy_engine.py`, lines 16–23). -/
def DEFAULT_POLICY : PolicyDoc :=
  [("max_drain", .pint 50),
   ("disallow_selfdestruct", .pbool false),
   ("disallow_delegatecall", .pbool false),
   ("max_nested_calls", .pint 5),
   ("min_block_score", .pint 0),
   ("policy_version", .pint 1)]

/-- The policy engine state: the in-memory document and the persisted file
contents (the file-I/O collaborator abstracted to its stored value). -/
structure PolicyState where
  policy : PolicyDoc
  fileDoc : Option PolicyDoc
deriving DecidableEq

namespace PolicyEngine

/-- Model of `PolicyEngine.set(key, value)` (`src/core/policy_engine.py`, lines 57–64):
reject unknown keys, store the value, bump `policy_version` from its current
value (default 1), and persist the document. -/
def set (st : PolicyState) (key : String) (value : PVal) :
    Except String PolicyState :=
  if (docGet DEFAULT_POLICY key).isNone then
    .error ("Unknown policy key: " ++ key)
  else
    let p1 := docSet st.policy key value
    let ver : Int := match docGet p1 "policy_version" with
      | some v => v.toInt
      | none => 1
    let p2 := docSet p1 "policy_version" (.pint (ver + 1))
    .ok { policy := p2, fileDoc := some p2 }

/-- Model of `PolicyEngine.apply(risk_report, ...)` (`src/core/policy_engine.py`,
lines 74–127). -/
def apply (policy : PolicyDoc) (risk_report : RiskReport)
    (state_diff_drain_pct : Rat) (opcode_selfdestruct opcode_delegatecall : Bool)
    (nested_calls : Int) : RiskReport :=
  let max_drain : PVal := (docGet policy "max_drain").getD (.pint 50)
  let v1 : List String :=
    if state_diff_drain_pct > (max_drain.toInt : Rat) then
      ["POLICY VIOLATION: Balance drain " ++ fmtRat1 state_diff_drain_pct ++
       "% exceeds policy limit of " ++ max_drain.str ++ "%"]
    else []
  let b1 : Int := if state_diff_drain_pct > (max_drain.toInt : Rat) then 15 else 0
  let sdDisallowed := ((docGet policy "disallow_selfdestruct").map PVal.truthy).getD false
  let v2 : List String :=
    if sdDisallowed ∧ opcode_selfdestruct then
      ["POLICY VIOLATION: SELFDESTRUCT is explicitly disallowed by policy"]
    else []
  let b2 : Int := if sdDisallowed ∧ opcode_selfdestruct then 20 else 0
  let dcDisallowed := ((docGet policy "disallow_delegatecall").map PVal.truthy).getD false
  let v3 : List String :=
    if dcDisallowed ∧ opcode_delegatecall then
      ["POLICY VIOLATION: DELEGATECALL is explicitly disallowed by policy"]
    else []
  let b3 : Int := if dcDisallowed ∧ opcode_delegatecall then 15 else 0
  let policy_max_calls : PVal := (docGet policy "max_nested_calls").getD (.pint 5)
  let v4 : List String :=
    if nested_calls > policy_max_calls.toInt then
      ["POLICY VIOLATION: Nested calls " ++ intStr nested_calls ++
       " exceeds policy limit of " ++ policy_max_calls.str]
    else []
  let b4 : Int := if nested_calls > policy_max_calls.toInt then 10 else 0
  let violations := v1 ++ v2 ++ v3 ++ v4
  let score_boost := b1 + b2 + b3 + b4
  let new_score := min 100 (risk_report.score + score_boost)
  let new_level := risk_level_from_score new_score
  { score := new_score
    level := new_level
    triggered_rules := risk_report.triggered_rules
    recommendation := recommendation_from_level new_level
    policy_violations := violations
    deterministic_hash := risk_report.deterministic_hash }

end PolicyEngine

/-! ## `src/core/shadow_executor.py` -/

/-- The outcome of the provider's `eth_call`, an environmental input to
`ShadowExecutor.execute`: a byte result, a `ContractLogicError`, or any
other exception (each exception carries its `str(e)`). -/
inductive EthCallOutcome where
  | ok : List Nat → EthCallOutcome
  | contractLogicError : String → EthCallOutcome
  | otherError : String → EthCallOutcome

/-- The environment of one shadow execution: the provider call results and the
measured wall-clock time, all external to the code under verification. -/
structure ExecEnv where
  ethCall : EthCallOutcome
  estimateGas : Except String Nat
  traceCall : Except String (Option JVal)
  elapsed_ms : Rat

namespace ShadowExecutor

/-- Model of `ShadowExecutor._extract_revert_reason(error_str)`
(`src/core/shadow_executor.py`, lines 118–126). -/
def extract_revert_reason (error_str : String) : String :=
  if strContainsSub error_str "execution reverted:" then
    match splitAfterFirst error_str "execution reverted:" with
    | some tail => stripStr tail
    | none => "Transaction reverted (no reason provided)"
  else if strContainsSub (lowerStr error_str) "revert" then takeStr 200 error_str
  else "Transaction reverted (no reason provided)"

/-- Model of `ShadowExecutor._get_real_gas(tx, gas_limit, reverted)`
(`src/core/shadow_executor.py`, lines 86–102): a reverted transaction is
charged the full gas limit; otherwise use `eth_estimateGas`, and on failure
`int(gas_limit * 0.5)` (exact halving, floored). -/
def get_real_gas (env : ExecEnv) (gas_limit : Nat) (reverted : Bool) : Nat :=
  if reverted then gas_limit
  else match env.estimateGas with
    | .ok estimated => estimated
    | .error _ => gas_limit / 2

/-- Model of `ShadowExecutor._get_trace(tx)` (`src/core/shadow_executor.py`,
lines 104–116). -/
def get_trace (env : ExecEnv) : Option JVal :=
  match env.traceCall with
  | .ok t => t
  | .error _ => none

/-- Model of `ShadowExecutor.execute(request)` (`src/core/shadow_executor.py`,
lines 26–84). -/
def execute (request : SimulationRequest) (env : ExecEnv) : SimulationResult :=
  let (return_data, reverted, revert_reason, success) :
      List Nat × Bool × Option String × Bool :=
    match env.ethCall with
    | .ok data => (data, false, none, true)
    | .contractLogicError e => ([], true, some (extract_revert_reason e), false)
    | .otherError e => ([], true, some (takeStr 200 e), false)
  let gas_used := get_real_gas env request.gas_limit reverted
  let trace := get_trace env
  { success := success
    return_data := if return_data ≠ [] then bytesHex return_data else "0x"
    gas_used := gas_used
    gas_limit := request.gas_limit
    reverted := reverted
    revert_reason := revert_reason
    trace := trace
    execution_time_ms := env.elapsed_ms }

end ShadowExecutor

/-! ## Derived definitions used by the claims -/

/-- The weight column of the eleven rule blocks of `RiskEngine.compute`,
in source order. -/
def riskWeightsList : List Int := [40, 50, 20, 10, 30, 20, 15, 10, 20, 15, 10]

/-- Which of the eleven rules fire on a given input, in source order. -/
def riskTrigBits (sd : StateDiff) (op : OpcodeProfile) (br : BehaviorReport) :
    List Bool :=
  (riskItems sd op br).map fun it => it.1

/-- Sum of the weights of the triggered rules. -/
def sumTriggeredWeights (bits : List Bool) (weights : List Int) : Int :=
  (List.zipWith (fun b w => if b then w else 0) bits weights).sum

/-- Spec-side closed form of the policy escalation points of
`PolicyEngine.apply`: +15 for drain over the policy max, +20 for selfdestruct
while disallowed, +15 for delegatecall while disallowed, +10 for nested calls
over the policy max. -/
def policyBoost (policy : PolicyDoc) (drain_pct : Rat)
    (opcode_selfdestruct opcode_delegatecall : Bool) (nested_calls : Int) : Int :=
  (if drain_pct > ((((docGet policy "max_drain").getD (.pint 50)).toInt : Int) : Rat)
    then 15 else 0)
  + (if (((docGet policy "disallow_selfdestruct").map PVal.truthy).getD false)
        ∧ opcode_selfdestruct then 20 else 0)
  + (if (((docGet policy "disallow_delegatecall").map PVal.truthy).getD false)
        ∧ opcode_delegatecall then 15 else 0)
  + (if nested_calls > ((docGet policy "max_nested_calls").getD (.pint 5)).toInt
      then 10 else 0)

/-- One "run" as seen by the Risk Scoring Engine when it computes the content
hash (`src/core/risk_engine.py`, lines 116–126): a simulation id, the run's
request, the state diff, the opcode profile, and the risk fields excluding
the hash itself. -/
structure RiskRun where
  simulation_id : String
  request : JVal
  state_diff : StateDiff
  opcode_profile : OpcodeProfile
  score : Int
  level : String
  triggered_rules : List String

/-- The record the Risk Scoring Engine hands to `compute_deterministic_hash`:
the call site serializes the `request` key as the literal empty dict `{}`,
independent of the run's request. -/
def riskHashRecord (r : RiskRun) : HashRecord :=
  { simulation_id := r.simulation_id
    request := .jobj []
    state_diff := stateDiffToJson r.state_diff
    opcode_profile := opcodeProfileToJson r.opcode_profile
    risk_report := [
      ("score", .jint r.score),
      ("level", .jstr r.level),
      ("triggered_rules", .jarr (r.triggered_rules.map .jstr))] }

/-- The canonical object that is serialized and digested for a run. -/
def riskRunCanonicalJson (r : RiskRun) : JVal := stableRecordJson (riskHashRecord r)

/-- The content hash the Risk Scoring Engine produces for a run. -/
def riskRunHash (r : RiskRun) : String := compute_deterministic_hash (riskHashRecord r)

theorem bumpCounts_push (c : OpcodeCounts) (b : Nat) (h1 : 0x60 ≤ b) (h2 : b ≤ 0x7F) :
    bumpCounts c b = c := by
  unfold bumpCounts
  repeat rw [if_neg (by omega)]

theorem scanAux_push (b : Nat) (rest : List Nat) (c : OpcodeCounts)
    (h1 : 0x60 ≤ b) (h2 : b ≤ 0x7F) :
    scanAux (b :: rest) c = scanAux (rest.drop (b - 0x60 + 1)) c := by
  rw [scanAux, if_pos ⟨h1, h2⟩, bumpCounts_push c b h1 h2]

theorem scanNext_gt (bytecode : List Nat) (i : Nat) :
    i < scanNext bytecode i := by
  simp only [scanNext]
  split <;> omega

theorem scanLoopFuel_eq_scanAux (bytecode : List Nat) :
    ∀ (fuel i : Nat) (c : OpcodeCounts), bytecode.length ≤ i + fuel →
      scanLoopFuel bytecode fuel i c = some (scanAux (bytecode.drop i) c) := by
  intro fuel
  induction fuel with
  | zero =>
    intro i c h
    rw [scanLoopFuel, if_neg (by omega), List.drop_eq_nil_of_le (by omega), scanAux]
  | succ f ih =>
    intro i c h
    by_cases hi : i < bytecode.length
    · rw [scanLoopFuel, if_pos hi, ih (scanNext bytecode i) _
        (by have := scanNext_gt bytecode i; omega)]
      have hb : bytecode.getD i 0 = bytecode[i] := List.getD_eq_getElem bytecode 0 hi
      rw [List.drop_eq_getElem_cons hi, scanAux]
      unfold scanNext
      rw [hb]
      by_cases hp : 0x60 ≤ bytecode[i] ∧ bytecode[i] ≤ 0x7F
      · rw [if_pos hp, if_pos hp, List.drop_drop,
          show i + 1 + (bytecode[i] - 96 + 1) = i + (bytecode[i] - 96 + 1) + 1 from by omega]
      · rw [if_neg hp, if_neg hp]
    · rw [scanLoopFuel, if_neg hi, List.drop_eq_nil_of_le (by omega), scanAux]

/-- Claim C2: the bytecode scanner skips PUSH operand bytes.  For a byte in
the range `0x60`–`0x7F` the cursor advances by `(byte - 0x60 + 1) + 1`
positions, so the scan of `b :: rest` continues at `rest.drop (b - 0x60 + 1)`
with the counts unchanged (the skipped operand bytes are never counted); in
particular scanning `[0x60, 0xFF]` yields `selfdestruct = 0` while scanning
`[0xFF]` yields `selfdestruct = 1`. -/
theorem claim_C2_push_skip :
    (∀ (b : Nat) (rest : List Nat) (c : OpcodeCounts), 0x60 ≤ b → b ≤ 0x7F →
      scanAux (b :: rest) c = scanAux (rest.drop (b - 0x60 + 1)) c)
    ∧ (scan_bytecode [0x60, 0xFF]).selfdestruct = 0
    ∧ (scan_bytecode [0xFF]).selfdestruct = 1 := by
  refine ⟨fun b rest c h1 h2 => scanAux_push b rest c h1 h2, ?_, ?_⟩
  · simp [scan_bytecode, scanAux, bumpCounts, zeroCounts]
  · simp [scan_bytecode, scanAux, bumpCounts, zeroCounts]

theorem claim_C2_witness :
    (0x60 ≤ 0x62 ∧ (0x62 : Nat) ≤ 0x7F) ∧
    scanAux [0x62, 0xFF, 0xFF, 0xFF] zeroCounts
      = scanAux ([(0xFF : Nat), 0xFF, 0xFF].drop (0x62 - 0x60 + 1)) zeroCounts :=
  ⟨⟨by decide, by decide⟩,
   claim_C2_push_skip.1 0x62 [0xFF, 0xFF, 0xFF] zeroCounts (by decide) (by decide)⟩

/-- Claim C10: the scan loop terminates on every finite byte sequence.  The
cursor strictly increases at every iteration, and the literal `while` loop,
run with fuel equal to the number of unread positions, always exits and
computes the same counts as the total function `scan_bytecode`. -/
theorem claim_C10_scan_terminates :
    (∀ (bytecode : List Nat) (i : Nat), i < bytecode.length → i < scanNext bytecode i)
    ∧ (∀ (bytecode : List Nat) (fuel i : Nat) (c : OpcodeCounts),
        bytecode.length ≤ i + fuel →
        scanLoopFuel bytecode fuel i c = some (scanAux (bytecode.drop i) c))
    ∧ (∀ (bytecode : List Nat),
        scanLoopFuel bytecode bytecode.length 0 zeroCounts = some (scan_bytecode bytecode)) := by
  refine ⟨fun bc i _ => scanNext_gt bc i, scanLoopFuel_eq_scanAux, fun bc => ?_⟩
  rw [scanLoopFuel_eq_scanAux bc bc.length 0 zeroCounts (by omega)]
  rfl

theorem claim_C10_witness :
    (2 : Nat) < [0x60, 0xFF, 0x55, 0x55].length ∧
    (2 : Nat) < scanNext [0x60, 0xFF, 0x55, 0x55] 2 ∧
    scanLoopFuel [0x60, 0xFF, 0x55, 0x55] 4 0 zeroCounts
      = some (scanAux ([(0x60 : Nat), 0xFF, 0x55, 0x55].drop 0) zeroCounts) :=
  ⟨by decide,
   claim_C10_scan_terminates.1 [0x60, 0xFF, 0x55, 0x55] 2 (by decide),
   claim_C10_scan_terminates.2.1 [0x60, 0xFF, 0x55, 0x55] 4 0 zeroCounts (by decide)⟩

/-- Claim C3: for non-negative integer balances, the drain percentage equals
`max 0 ((before - after) / before * 100)` when `before > 0` and `0` when
`before = 0`; in particular `drain 1000 400 = 60`, `drain 1000 1200 = 0`, and
`drain 0 x = 0` for every `x`. -/
theorem claim_C3_drain_percentage :
    (∀ before after : Int, 0 ≤ before → 0 ≤ after →
      drain_percentage before after =
        if 0 < before then max 0 (((before : Rat) - (after : Rat)) / (before : Rat) * 100)
        else 0)
    ∧ drain_percentage 1000 400 = 60
    ∧ drain_percentage 1000 1200 = 0
    ∧ (∀ x : Int, drain_percentage 0 x = 0) := by
  refine ⟨?_, by norm_num [drain_percentage], by norm_num [drain_percentage],
    fun x => by norm_num [drain_percentage]⟩
  intro before after hb _
  unfold drain_percentage
  rcases eq_or_lt_of_le hb with h0 | hpos
  · rw [if_pos h0.symm, if_neg (by omega)]
  · rw [if_neg (by omega), if_pos hpos]
    have hbq : (0 : Rat) < (before : Rat) := by exact_mod_cast hpos
    by_cases hd : before - after ≤ 0
    · rw [if_pos hd]
      have hnum : (before : Rat) - (after : Rat) ≤ 0 := by
        have : (after : Rat) ≥ (before : Rat) := by exact_mod_cast (by omega : before ≤ after)
        linarith
      have : ((before : Rat) - (after : Rat)) / (before : Rat) * 100 ≤ 0 := by
        apply mul_nonpos_of_nonpos_of_nonneg
        · exact div_nonpos_of_nonpos_of_nonneg hnum (le_of_lt hbq)
        · norm_num
      rw [max_eq_left this]
    · rw [if_neg hd]
      push_neg at hd
      have hnum : (0 : Rat) < (before : Rat) - (after : Rat) := by
        have : ((before - after : Int) : Rat) > 0 := by exact_mod_cast hd
        push_cast at this
        linarith
      have hpos2 : (0 : Rat) < ((before : Rat) - (after : Rat)) / (before : Rat) * 100 := by
        positivity
      rw [max_eq_right (le_of_lt hpos2)]
      push_cast
      ring

theorem claim_C3_witness :
    (0 : Int) ≤ 200 ∧ (0 : Int) ≤ 50 ∧
    drain_percentage 200 50
      = if (0 : Int) < 200 then max 0 (((200 : Rat) - (50 : Rat)) / (200 : Rat) * 100)
        else 0 :=
  ⟨by norm_num, by norm_num, claim_C3_drain_percentage.1 200 50 (by norm_num) (by norm_num)⟩

/-- Claim C4: the state diff's `ownership_changed` flag is true iff the owner
slot value differs between the snapshots and the after value is not the
all-zero 32-byte word; a transition to the zero word is not flagged, and a
transition to a different nonzero value is flagged. -/
theorem claim_C4_ownership_changed :
    ∀ before after : StateSnapshot,
      ((StateDiffEngine.compute before after).ownership_changed = true ↔
        (before.owner_slot ≠ after.owner_slot ∧ after.owner_slot ≠ zeroWord))
      ∧ (after.owner_slot = zeroWord →
          (StateDiffEngine.compute before after).ownership_changed = false)
      ∧ (before.owner_slot ≠ after.owner_slot → after.owner_slot ≠ zeroWord →
          (StateDiffEngine.compute before after).ownership_changed = true) := by
  intro before after
  have hiff : (StateDiffEngine.compute before after).ownership_changed = true ↔
      (before.owner_slot ≠ after.owner_slot ∧ after.owner_slot ≠ zeroWord) := by
    simp [StateDiffEngine.compute]
  refine ⟨hiff, fun hz => ?_, fun h1 h2 => hiff.mpr ⟨h1, h2⟩⟩
  rcases Bool.eq_false_or_eq_true (StateDiffEngine.compute before after).ownership_changed
    with ht | hf
  · exact absurd (hiff.mp ht).2 (by simp [hz])
  · exact hf

theorem claim_C4_witness :
    ((StateDiffEngine.compute ⟨0, 0, "", 0, [], "0xab", 0, ""⟩
        ⟨0, 0, "", 0, [], zeroWord, 0, ""⟩).ownership_changed = false)
    ∧ ((StateDiffEngine.compute ⟨0, 0, "", 0, [], "0xab", 0, ""⟩
        ⟨0, 0, "", 0, [], "0xcd", 0, ""⟩).ownership_changed = true) :=
  ⟨(claim_C4_ownership_changed ⟨0, 0, "", 0, [], "0xab", 0, ""⟩
      ⟨0, 0, "", 0, [], zeroWord, 0, ""⟩).2.1 rfl,
   (claim_C4_ownership_changed ⟨0, 0, "", 0, [], "0xab", 0, ""⟩
      ⟨0, 0, "", 0, [], "0xcd", 0, ""⟩).2.2 (by decide) (by decide)⟩

/-- Claim C8: whenever the simulation reverted, the execution result's
`gas_used` equals the request's gas limit. -/
theorem claim_C8_reverted_gas :
    ∀ (request : SimulationRequest) (env : ExecEnv),
      (ShadowExecutor.execute request env).reverted = true →
      (ShadowExecutor.execute request env).gas_used = request.gas_limit := by
  intro request env h
  cases henv : env.ethCall <;>
    simp [ShadowExecutor.execute, ShadowExecutor.get_real_gas, henv] at h ⊢

theorem claim_C8_witness :
    (ShadowExecutor.execute ⟨"0xa", "0xb", 0, "0x", 21000, "SIM", ""⟩
        ⟨.contractLogicError "execution reverted: nope", .error "x", .error "x", 0⟩).reverted
      = true
    ∧ (ShadowExecutor.execute ⟨"0xa", "0xb", 0, "0x", 21000, "SIM", ""⟩
        ⟨.contractLogicError "execution reverted: nope", .error "x", .error "x", 0⟩).gas_used
      = 21000 :=
  ⟨rfl, claim_C8_reverted_gas ⟨"0xa", "0xb", 0, "0x", 21000, "SIM", ""⟩
    ⟨.contractLogicError "execution reverted: nope", .error "x", .error "x", 0⟩ rfl⟩

theorem foldl_if_eq_sumZip (items : List (Bool × Int × String)) (acc : Int) :
    items.foldl (fun a it => if it.1 then a + it.2.1 else a) acc
      = acc + sumTriggeredWeights (items.map fun it => it.1) (items.map fun it => it.2.1) := by
  induction items generalizing acc with
  | nil => simp [sumTriggeredWeights]
  | cons it t ih =>
    obtain ⟨b, w, s⟩ := it
    simp only [List.foldl_cons, List.map_cons, sumTriggeredWeights,
      List.zipWith_cons_cons, List.sum_cons]
    rw [ih]
    unfold sumTriggeredWeights
    cases b <;> simp
    omega

theorem sumZip_mono {bs1 bs2 : List Bool}
    (h : List.Forall₂ (fun a b => a = true → b = true) bs1 bs2) :
    ∀ ws : List Int, (∀ w ∈ ws, 0 ≤ w) →
      sumTriggeredWeights bs1 ws ≤ sumTriggeredWeights bs2 ws := by
  induction h with
  | nil => intro ws _; simp [sumTriggeredWeights]
  | @cons a b t1 t2 hab _ ih =>
    intro ws hw
    cases ws with
    | nil => simp [sumTriggeredWeights]
    | cons w wt =>
      have hwn : 0 ≤ w := hw w (List.mem_cons_self w wt)
      have h1 := ih wt (fun x hx => hw x (List.mem_cons_of_mem w hx))
      have h2 : (if a then w else 0) ≤ (if b then w else 0) := by
        cases a
        · cases b <;> simp [hwn]
        · rw [hab rfl]
      unfold sumTriggeredWeights at h1 ⊢
      simp only [List.zipWith_cons_cons, List.sum_cons]
      omega

theorem riskItems_weights (sd : StateDiff) (op : OpcodeProfile) (br : BehaviorReport) :
    (riskItems sd op br).map (fun it => it.2.1) = riskWeightsList := rfl

theorem compute_score_eq (sd : StateDiff) (op : OpcodeProfile) (br : BehaviorReport)
    (sim_id : String) :
    (RiskEngine.compute sd op br sim_id).score
      = max 0 (min 100 (sumTriggeredWeights (riskTrigBits sd op br) riskWeightsList)) := by
  have h : (RiskEngine.compute sd op br sim_id).score
      = max 0 (min 100 ((riskItems sd op br).foldl
          (fun a it => if it.1 then a + it.2.1 else a) 0)) := rfl
  rw [h, foldl_if_eq_sumZip, riskItems_weights]
  simp [riskTrigBits]

/-- Claim C5: the final risk score is the sum of the weights of the triggered
rules clamped to `[0, 100]`; it is monotone in the triggered-rule set (a
superset of triggered rules — in particular a strict superset — never
decreases the score); and it never exceeds 100. -/
theorem claim_C5_score_clamped_monotone :
    (∀ (sd : StateDiff) (op : OpcodeProfile) (br : BehaviorReport) (sim_id : String),
      (RiskEngine.compute sd op br sim_id).score
        = max 0 (min 100 (sumTriggeredWeights (riskTrigBits sd op br) riskWeightsList)))
    ∧ (∀ (sd₁ : StateDiff) (op₁ : OpcodeProfile) (br₁ : BehaviorReport) (id₁ : String)
        (sd₂ : StateDiff) (op₂ : OpcodeProfile) (br₂ : BehaviorReport) (id₂ : String),
        List.Forall₂ (fun a b => a = true → b = true)
          (riskTrigBits sd₁ op₁ br₁) (riskTrigBits sd₂ op₂ br₂) →
        (RiskEngine.compute sd₁ op₁ br₁ id₁).score ≤ (RiskEngine.compute sd₂ op₂ br₂ id₂).score)
    ∧ (∀ (sd : StateDiff) (op : OpcodeProfile) (br : BehaviorReport) (sim_id : String),
        (RiskEngine.compute sd op br sim_id).score ≤ 100) := by
  have hw : ∀ w ∈ riskWeightsList, (0 : Int) ≤ w := by decide
  refine ⟨compute_score_eq, ?_, ?_⟩
  · intro sd₁ op₁ br₁ id₁ sd₂ op₂ br₂ id₂ h
    rw [compute_score_eq, compute_score_eq]
    have := sumZip_mono h riskWeightsList hw
    exact max_le_max le_rfl (min_le_min le_rfl this)
  · intro sd op br sim_id
    rw [compute_score_eq]
    exact max_le (by norm_num) (min_le_left _ _)

/-- Claim C6: a state diff with 60% sender drain and all other risk signals
absent produces base score 40 and level MEDIUM; applying the default policy
(max allowed drain 50) yields final score 55, level HIGH, and exactly one
policy-violation message. -/
theorem claim_C6_scenario_A :
    (RiskEngine.compute ⟨-600, 600, 60, false, [], false, 0⟩
        ⟨0, 0, 0, 0, 0, 0, 0, false, [], 0⟩ ⟨0, false, 0, 0, 0, 0, []⟩ "SIM-A").score = 40
    ∧ (RiskEngine.compute ⟨-600, 600, 60, false, [], false, 0⟩
        ⟨0, 0, 0, 0, 0, 0, 0, false, [], 0⟩ ⟨0, false, 0, 0, 0, 0, []⟩ "SIM-A").level = "MEDIUM"
    ∧ (PolicyEngine.apply DEFAULT_POLICY
        (RiskEngine.compute ⟨-600, 600, 60, false, [], false, 0⟩
          ⟨0, 0, 0, 0, 0, 0, 0, false, [], 0⟩ ⟨0, false, 0, 0, 0, 0, []⟩ "SIM-A")
        60 false false 0).score = 55
    ∧ (PolicyEngine.apply DEFAULT_POLICY
        (RiskEngine.compute ⟨-600, 600, 60, false, [], false, 0⟩
          ⟨0, 0, 0, 0, 0, 0, 0, false, [], 0⟩ ⟨0, false, 0, 0, 0, 0, []⟩ "SIM-A")
        60 false false 0).level = "HIGH"
    ∧ (PolicyEngine.apply DEFAULT_POLICY
        (RiskEngine.compute ⟨-600, 600, 60, false, [], false, 0⟩
          ⟨0, 0, 0, 0, 0, 0, 0, false, [], 0⟩ ⟨0, false, 0, 0, 0, 0, []⟩ "SIM-A")
        60 false false 0).policy_violations.length = 1 := by
  decide

/-- Claim C7: `PolicyEngine.apply` returns a new risk report whose score is
the input score plus the accumulated escalation points (+15 drain over max,
+20 selfdestruct disallowed, +15 delegatecall disallowed, +10 nested calls
over max) clamped to at most 100, whose level and recommendation are
recomputed from that new score, and whose `triggered_rules` and
`deterministic_hash` are exactly those of the input report. -/
theorem claim_C7_policy_apply_frame :
    ∀ (policy : PolicyDoc) (report : RiskReport) (drain_pct : Rat)
      (opc_sd opc_dc : Bool) (nested : Int),
      (PolicyEngine.apply policy report drain_pct opc_sd opc_dc nested).score
        = min 100 (report.score + policyBoost policy drain_pct opc_sd opc_dc nested)
      ∧ (PolicyEngine.apply policy report drain_pct opc_sd opc_dc nested).level
        = risk_level_from_score
            (PolicyEngine.apply policy report drain_pct opc_sd opc_dc nested).score
      ∧ (PolicyEngine.apply policy report drain_pct opc_sd opc_dc nested).recommendation
        = recommendation_from_level
            (PolicyEngine.apply policy report drain_pct opc_sd opc_dc nested).level
      ∧ (PolicyEngine.apply policy report drain_pct opc_sd opc_dc nested).triggered_rules
        = report.triggered_rules
      ∧ (PolicyEngine.apply policy report drain_pct opc_sd opc_dc nested).deterministic_hash
        = report.deterministic_hash := by
  intro policy report drain_pct opc_sd opc_dc nested
  refine ⟨?_, rfl, rfl, rfl, rfl⟩
  show min 100 (report.score + _) = _
  unfold policyBoost
  ring_nf

theorem docGet_cons (p : String × PVal) (l : PolicyDoc) (k : String) :
    docGet (p :: l) k = if p.1 = k then some p.2 else docGet l k := by
  by_cases h : p.1 = k <;> simp [docGet, List.find?, h]

theorem docGet_docSet_self (d : PolicyDoc) (k : String) (v : PVal) :
    docGet (docSet d k v) k = some v := by
  induction d with
  | nil => simp [docSet, docGet_cons, docGet, List.find?]
  | cons p rest ih =>
    simp only [docSet]
    by_cases h : p.1 = k
    · rw [if_pos h, docGet_cons, if_pos rfl]
    · rw [if_neg h, docGet_cons, if_neg h, ih]

theorem docGet_docSet_ne (d : PolicyDoc) (k k' : String) (v : PVal) (h : k ≠ k') :
    docGet (docSet d k v) k' = docGet d k' := by
  induction d with
  | nil => simp [docSet, docGet_cons, docGet, List.find?, h]
  | cons p rest ih =>
    simp only [docSet]
    by_cases hp : p.1 = k
    · rw [if_pos hp, docGet_cons, docGet_cons, if_neg (by simp [h]), if_neg (hp ▸ (by simp [h]))]
    · rw [if_neg hp, docGet_cons, docGet_cons, ih]

/-- Claim C9 (amended): `PolicyEngine.set` rejects a key absent from the
default policy document with an error; for every known key other than
`policy_version` it stores the given value, increments `policy_version` by
one, and persists the document; for the key `policy_version` itself the
explicit version bump overwrites the assignment, leaving the stored version
at the given value plus one. -/
theorem claim_C9_policy_set :
    ∀ (st : PolicyState) (key : String) (value : PVal) (n : Int),
      (docGet DEFAULT_POLICY key = none →
        PolicyEngine.set st key value = .error ("Unknown policy key: " ++ key))
      ∧ ((docGet DEFAULT_POLICY key).isSome → key ≠ "policy_version" →
          docGet st.policy "policy_version" = some (.pint n) →
          ∃ st', PolicyEngine.set st key value = .ok st'
            ∧ docGet st'.policy key = some value
            ∧ docGet st'.policy "policy_version" = some (.pint (n + 1))
            ∧ st'.fileDoc = some st'.policy)
      ∧ (PolicyEngine.set st "policy_version" value
          = .ok ⟨docSet (docSet st.policy "policy_version" value) "policy_version"
                  (.pint (value.toInt + 1)),
                some (docSet (docSet st.policy "policy_version" value) "policy_version"
                  (.pint (value.toInt + 1)))⟩) := by
  intro st key value n
  refine ⟨fun hnone => ?_, fun hsome hne hver => ?_, ?_⟩
  · unfold PolicyEngine.set
    rw [if_pos (by simp [hnone])]
  · unfold PolicyEngine.set
    rw [if_neg (by simp [Option.isNone_iff_eq_none]; exact Option.isSome_iff_ne_none.mp hsome)]
    refine ⟨_, rfl, ?_, ?_, rfl⟩
    · rw [docGet_docSet_ne _ _ _ _ (fun h => hne h.symm), docGet_docSet_self]
    · have hv : docGet (docSet st.policy key value) "policy_version"
          = some (.pint n) := by
        rw [docGet_docSet_ne _ _ _ _ hne, hver]
      rw [docGet_docSet_self]
      simp [hv, PVal.toInt]
  · unfold PolicyEngine.set
    rw [if_neg (by simp [docGet, DEFAULT_POLICY, List.find?])]
    simp [docGet_docSet_self]

theorem claim_C9_counterexample :
    (PolicyEngine.set ⟨DEFAULT_POLICY, none⟩ "policy_version" (.pint 10)).toOption.map
        (fun st' => docGet st'.policy "policy_version")
      = some (some (.pint 11))
    ∧ some (some (PVal.pint 11)) ≠ some (some (PVal.pint 10))
    ∧ some (some (PVal.pint 11)) ≠ some (some (PVal.pint 2)) := by
  refine ⟨by decide, by decide, by decide⟩

theorem claim_C9_witness :
    (docGet DEFAULT_POLICY "bogus_key" = none →
      PolicyEngine.set ⟨DEFAULT_POLICY, none⟩ "bogus_key" (.pint 1)
        = .error ("Unknown policy key: " ++ "bogus_key"))
    ∧ ((docGet DEFAULT_POLICY "max_drain").isSome → "max_drain" ≠ "policy_version" →
        docGet DEFAULT_POLICY "policy_version" = some (.pint 1) →
        ∃ st', PolicyEngine.set ⟨DEFAULT_POLICY, none⟩ "max_drain" (.pint 80) = .ok st'
          ∧ docGet st'.policy "max_drain" = some (.pint 80)
          ∧ docGet st'.policy "policy_version" = some (.pint (1 + 1))
          ∧ st'.fileDoc = some st'.policy)
    ∧ docGet DEFAULT_POLICY "bogus_key" = none
    ∧ (docGet DEFAULT_POLICY "max_drain").isSome
    ∧ docGet DEFAULT_POLICY "policy_version" = some (.pint 1) :=
  ⟨(claim_C9_policy_set ⟨DEFAULT_POLICY, none⟩ "bogus_key" (.pint 1) 1).1,
   (claim_C9_policy_set ⟨DEFAULT_POLICY, none⟩ "max_drain" (.pint 80) 1).2.1,
   by decide, by decide, by decide⟩

theorem claim_C5_witness :
    List.Forall₂ (fun a b => a = true → b = true)
      (riskTrigBits ⟨0, 0, 0, false, [], false, 0⟩ ⟨0, 0, 0, 0, 0, 0, 0, false, [], 0⟩
        ⟨0, false, 0, 0, 0, 0, []⟩)
      (riskTrigBits ⟨-600, 600, 60, false, [], false, 0⟩ ⟨0, 0, 0, 0, 0, 0, 0, false, [], 0⟩
        ⟨0, false, 0, 0, 0, 0, []⟩)
    ∧ (RiskEngine.compute ⟨0, 0, 0, false, [], false, 0⟩ ⟨0, 0, 0, 0, 0, 0, 0, false, [], 0⟩
        ⟨0, false, 0, 0, 0, 0, []⟩ "A").score
      ≤ (RiskEngine.compute ⟨-600, 600, 60, false, [], false, 0⟩
        ⟨0, 0, 0, 0, 0, 0, 0, false, [], 0⟩ ⟨0, false, 0, 0, 0, 0, []⟩ "B").score :=
  ⟨by decide,
   claim_C5_score_clamped_monotone.2.1 _ _ _ "A" _ _ _ "B" (by decide)⟩

theorem jstr_inj : Function.Injective JVal.jstr := fun _ _ h => by injection h

theorem riskRunCanonicalJson_def (r : RiskRun) :
    riskRunCanonicalJson r = .jobj [
      ("simulation_id", .jstr r.simulation_id),
      ("request", .jobj []),
      ("state_diff", stateDiffToJson r.state_diff),
      ("opcode_profile", opcodeProfileToJson r.opcode_profile),
      ("risk_report", .jobj [
        ("score", .jint r.score),
        ("level", .jstr r.level),
        ("triggered_rules", .jarr (r.triggered_rules.map .jstr))])] := rfl

theorem slotEnc_inj : Function.Injective (fun s : SlotChange =>
    (natStr s.slot, JVal.jobj [("before", JVal.jstr s.before), ("after", JVal.jstr s.after)])) := by
  intro s t h
  simp only [Prod.mk.injEq, JVal.jobj.injEq, List.cons.injEq, JVal.jstr.injEq,
    true_and, and_true] at h
  obtain ⟨hk, hb, ha⟩ := h
  have := natStr_injective hk
  cases s; cases t; simp_all

theorem stateDiffToJson_inj : Function.Injective stateDiffToJson := by
  intro a b h
  simp only [stateDiffToJson, JVal.jobj.injEq, List.cons.injEq, Prod.mk.injEq,
    JVal.jint.injEq, JVal.jnum.injEq, JVal.jbool.injEq,
    true_and, and_true] at h
  obtain ⟨h1, h2, h3, h4, h5, h6, h7⟩ := h
  have hs := List.map_injective_iff.mpr slotEnc_inj h5
  cases a; cases b; simp_all

theorem opcodeProfileToJson_inj : Function.Injective opcodeProfileToJson := by
  intro a b h
  simp only [opcodeProfileToJson, JVal.jobj.injEq, List.cons.injEq, Prod.mk.injEq,
    JVal.jint.injEq, JVal.jbool.injEq, JVal.jarr.injEq, Int.natCast_inj,
    true_and, and_true] at h
  obtain ⟨h1, h2, h3, h4, h5, h6, h7, h8, h9, h10⟩ := h
  have hr := List.map_injective_iff.mpr jstr_inj h9
  cases a; cases b; simp_all

/-- Claim C1 (amended): the Risk Scoring Engine's content hash is a function
of the simulation id, state diff, opcode profile and risk fields alone —
runs identical in those fields (regardless of request) hash identically,
because the call site serializes the request as the empty object — and, on
canonical storage-change representations, the canonical object that is
serialized and digested coincides for two runs exactly when all those
non-request fields coincide (so changing any one of them changes the digest
preimage, and the hashes differ whenever SHA-256 does not collide). -/
theorem claim_C1_content_hash :
    (∀ r₁ r₂ : RiskRun, r₁.simulation_id = r₂.simulation_id →
      r₁.state_diff = r₂.state_diff → r₁.opcode_profile = r₂.opcode_profile →
      r₁.score = r₂.score → r₁.level = r₂.level →
      r₁.triggered_rules = r₂.triggered_rules →
      riskRunHash r₁ = riskRunHash r₂)
    ∧ (∀ r₁ r₂ : RiskRun, r₁.state_diff.canonicalSlots → r₂.state_diff.canonicalSlots →
        (riskRunCanonicalJson r₁ = riskRunCanonicalJson r₂ ↔
          (r₁.simulation_id = r₂.simulation_id ∧ r₁.state_diff = r₂.state_diff ∧
           r₁.opcode_profile = r₂.opcode_profile ∧ r₁.score = r₂.score ∧
           r₁.level = r₂.level ∧ r₁.triggered_rules = r₂.triggered_rules))) := by
  constructor
  · intro r₁ r₂ h1 h2 h3 h4 h5 h6
    unfold riskRunHash compute_deterministic_hash riskHashRecord
    rw [h1, h2, h3, h4, h5, h6]
  · intro r₁ r₂ _ _
    constructor
    · intro h
      rw [riskRunCanonicalJson_def, riskRunCanonicalJson_def] at h
      simp only [JVal.jobj.injEq, List.cons.injEq, Prod.mk.injEq, JVal.jstr.injEq,
        JVal.jint.injEq, JVal.jarr.injEq, true_and, and_true] at h
      obtain ⟨hsim, hsd, hop, hscore, hlevel, hrules⟩ := h
      exact ⟨hsim, stateDiffToJson_inj hsd, opcodeProfileToJson_inj hop, hscore, hlevel,
        List.map_injective_iff.mpr jstr_inj hrules⟩
    · intro ⟨h1, h2, h3, h4, h5, h6⟩
      rw [riskRunCanonicalJson_def, riskRunCanonicalJson_def, h1, h2, h3, h4, h5, h6]

theorem claim_C1_counterexample :
    (RiskRun.mk "SIM" (.jobj [("sender", .jstr "0xAAA")]) ⟨0, 0, 0, false, [], false, 0⟩
        ⟨0, 0, 0, 0, 0, 0, 0, false, [], 0⟩ 0 "LOW" []).request
      ≠ (RiskRun.mk "SIM" (.jobj [("sender", .jstr "0xBBB")]) ⟨0, 0, 0, false, [], false, 0⟩
        ⟨0, 0, 0, 0, 0, 0, 0, false, [], 0⟩ 0 "LOW" []).request
    ∧ riskRunHash (RiskRun.mk "SIM" (.jobj [("sender", .jstr "0xAAA")])
        ⟨0, 0, 0, false, [], false, 0⟩ ⟨0, 0, 0, 0, 0, 0, 0, false, [], 0⟩ 0 "LOW" [])
      = riskRunHash (RiskRun.mk "SIM" (.jobj [("sender", .jstr "0xBBB")])
        ⟨0, 0, 0, false, [], false, 0⟩ ⟨0, 0, 0, 0, 0, 0, 0, false, [], 0⟩ 0 "LOW" []) := by
  refine ⟨?_, rfl⟩
  intro h
  simp at h

theorem claim_C1_witness :
    riskRunHash (RiskRun.mk "SIM" (.jobj [("sender", .jstr "0xAAA")])
        ⟨-600, 600, 60, false, [⟨0, "0xaa", "0xbb"⟩], false, 0⟩
        ⟨1, 0, 0, 0, 0, 0, 0, true, ["SELFDESTRUCT (×1)"], 10⟩ 70 "HIGH" ["rule"])
      = riskRunHash (RiskRun.mk "SIM" .jnull
        ⟨-600, 600, 60, false, [⟨0, "0xaa", "0xbb"⟩], false, 0⟩
        ⟨1, 0, 0, 0, 0, 0, 0, true, ["SELFDESTRUCT (×1)"], 10⟩ 70 "HIGH" ["rule"])
    ∧ (riskRunCanonicalJson (RiskRun.mk "SIM" (.jobj [("sender", .jstr "0xAAA")])
          ⟨-600, 600, 60, false, [⟨0, "0xaa", "0xbb"⟩], false, 0⟩
          ⟨1, 0, 0, 0, 0, 0, 0, true, ["SELFDESTRUCT (×1)"], 10⟩ 70 "HIGH" ["rule"])
        = riskRunCanonicalJson (RiskRun.mk "OTHER" .jnull
          ⟨0, 0, 0, false, [], false, 0⟩
          ⟨0, 0, 0, 0, 0, 0, 0, false, [], 0⟩ 0 "LOW" [])
      ↔ ("SIM" = "OTHER"
          ∧ (⟨-600, 600, 60, false, [⟨0, "0xaa", "0xbb"⟩], false, 0⟩ : StateDiff)
            = (⟨0, 0, 0, false, [], false, 0⟩ : StateDiff)
          ∧ (⟨1, 0, 0, 0, 0, 0, 0, true, ["SELFDESTRUCT (×1)"], 10⟩ : OpcodeProfile)
            = (⟨0, 0, 0, 0, 0, 0, 0, false, [], 0⟩ : OpcodeProfile)
          ∧ (70 : Int) = 0 ∧ "HIGH" = "LOW" ∧ (["rule"] : List String) = [])) :=
  ⟨claim_C1_content_hash.1 _ _ rfl rfl rfl rfl rfl rfl,
   claim_C1_content_hash.2
     (RiskRun.mk "SIM" (.jobj [("sender", .jstr "0xAAA")])
       ⟨-600, 600, 60, false, [⟨0, "0xaa", "0xbb"⟩], false, 0⟩
       ⟨1, 0, 0, 0, 0, 0, 0, true, ["SELFDESTRUCT (×1)"], 10⟩ 70 "HIGH" ["rule"])
     (RiskRun.mk "OTHER" .jnull ⟨0, 0, 0, false, [], false, 0⟩
       ⟨0, 0, 0, 0, 0, 0, 0, false, [], 0⟩ 0 "LOW" [])
     (by decide) (by decide)⟩
